import Mathlib

/-! Verification of the Fenna SVG-to-Castle drawing converter.

Shallow embedding of the conversion pipeline (src/lib/converter/matrix.ts,
mapColors.ts, convertPaths.ts, renderFills.ts, src/lib/castle/palettes.ts,
src/lib/castle/render.ts) over exact real arithmetic.  JavaScript numbers
are modelled by ℝ.  The one place where IEEE special values (division by
zero followed by NaN propagation) change control flow — the arc
endpoint-to-center conversion with coincident endpoints — is modelled by
an explicit branch whose comment derives the float behaviour step by step.
Values produced by external libraries (the DOM parse, svg-pathdata's
command parse, the browser rasterizer, the uuid generator) enter the model
as parameters holding their results.  Warning messages are represented by
symbolic tags rather than formatted strings. -/

namespace Fenna

/-! ### 2D affine matrix utilities (matrix.ts) -/

/-- Row-major 2D affine transform; the source stores it as the array
[a, b, c, d, e, f]. -/
@[ext] structure Matrix where
  a : ℝ
  b : ℝ
  c : ℝ
  d : ℝ
  e : ℝ
  f : ℝ

def IDENTITY : Matrix := ⟨1, 0, 0, 1, 0, 0⟩

/-- Multiply two affine matrices: result = m1 * m2 (matrix.ts `multiply`). -/
def multiply (m1 m2 : Matrix) : Matrix :=
  ⟨m1.a * m2.a + m1.c * m2.b,
   m1.b * m2.a + m1.d * m2.b,
   m1.a * m2.c + m1.c * m2.d,
   m1.b * m2.c + m1.d * m2.d,
   m1.a * m2.e + m1.c * m2.f + m1.e,
   m1.b * m2.e + m1.d * m2.f + m1.f⟩

/-- Apply a matrix to a point (matrix.ts `transformPoint`). -/
def transformPoint (m : Matrix) (x y : ℝ) : ℝ × ℝ :=
  (m.a * x + m.c * y + m.e, m.b * x + m.d * y + m.f)

/-! ### Castle path segments (castle/format.ts, convertPaths.ts) -/

/-- A Castle path segment.  The source carries the two endpoints as the
flat array `p = [x1, y1, x2, y2]`; here the four entries are named
fields. -/
structure CastlePathData where
  x1 : ℝ
  y1 : ℝ
  x2 : ℝ
  y2 : ℝ
  s : ℕ
  bp : Option (ℝ × ℝ)
  f : Bool
  c : Option (List ℝ)
  isTransparent : Bool

/-- convertPaths.ts `straightSegment`. -/
def straightSegment (x1 y1 x2 y2 : ℝ) (color : Option (List ℝ)) (isFill : Bool) :
    CastlePathData :=
  ⟨x1, y1, x2, y2, 1, none, isFill, color, false⟩

/-- convertPaths.ts `quadSegment`: a segment with a quadratic bend point. -/
def quadSegment (x1 y1 x2 y2 : ℝ) (bp : ℝ × ℝ) (color : Option (List ℝ)) (isFill : Bool) :
    CastlePathData :=
  ⟨x1, y1, x2, y2, 1, some bp, isFill, color, false⟩

/-- The paint-independent part of a segment: endpoints, style tag and bend
point. -/
def segGeom (seg : CastlePathData) : ℝ × ℝ × ℝ × ℝ × ℕ × Option (ℝ × ℝ) :=
  (seg.x1, seg.y1, seg.x2, seg.y2, seg.s, seg.bp)

/-! ### Bounds (renderFills.ts `computeBounds`) -/

structure CastleBounds where
  minX : ℝ
  maxX : ℝ
  minY : ℝ
  maxY : ℝ

/-- renderFills.ts `computeBounds`: scan every `p` array (endpoints only,
never bend points), keep running min/max, pad by the 0.1 margin.  The
source initializes the running min to Infinity and returns the fallback
bounds when it was never updated; since every segment contributes its four
`p` entries, that is exactly the empty-list case of this match. -/
def computeBounds : List CastlePathData → CastleBounds
  | [] => ⟨-10, 10, -10, 10⟩
  | seg :: rest =>
    let xs := rest.flatMap fun u => [u.x1, u.x2]
    let ys := rest.flatMap fun u => [u.y1, u.y2]
    ⟨List.foldl min (min seg.x1 seg.x2) xs - 0.1,
     List.foldl max (max seg.x1 seg.x2) xs + 0.1,
     List.foldl min (min seg.y1 seg.y2) ys - 0.1,
     List.foldl max (max seg.y1 seg.y2) ys + 0.1⟩

lemma foldl_min_le_init (x : ℝ) (l : List ℝ) : List.foldl min x l ≤ x := by
  induction l generalizing x with
  | nil => simp
  | cons y t ih => exact le_trans (ih (min x y)) (min_le_left x y)

lemma foldl_min_le_mem {a : ℝ} {l : List ℝ} (h : a ∈ l) (x : ℝ) :
    List.foldl min x l ≤ a := by
  induction l generalizing x with
  | nil => simp at h
  | cons y t ih =>
    rcases List.mem_cons.mp h with rfl | hmem
    · exact le_trans (foldl_min_le_init (min x a) t) (min_le_right x a)
    · exact ih hmem (min x y)

lemma init_le_foldl_max (x : ℝ) (l : List ℝ) : x ≤ List.foldl max x l := by
  induction l generalizing x with
  | nil => simp
  | cons y t ih => exact le_trans (le_max_left x y) (ih (max x y))

lemma mem_le_foldl_max {a : ℝ} {l : List ℝ} (h : a ∈ l) (x : ℝ) :
    a ≤ List.foldl max x l := by
  induction l generalizing x with
  | nil => simp at h
  | cons y t ih =>
    rcases List.mem_cons.mp h with rfl | hmem
    · exact le_trans (le_max_right x a) (init_le_foldl_max (max x a) t)
    · exact ih hmem (max x y)

/-- Claim C8: affine matrix composition is associative, and applying the
identity matrix (1,0,0,1,0,0) to any point returns that point unchanged. -/
theorem matrix_multiply_assoc_and_identity :
    (∀ m1 m2 m3 : Matrix,
        multiply (multiply m1 m2) m3 = multiply m1 (multiply m2 m3)) ∧
    (∀ x y : ℝ, transformPoint IDENTITY x y = (x, y)) := by
  constructor
  · intro m1 m2 m3
    ext <;> simp [multiply] <;> ring
  · intro x y
    simp [transformPoint, IDENTITY]

lemma computeBounds_cons_le_x {s0 : CastlePathData} {rest : List CastlePathData}
    {a : ℝ} (ha : a = s0.x1 ∨ a = s0.x2 ∨ a ∈ rest.flatMap fun u => [u.x1, u.x2]) :
    (computeBounds (s0 :: rest)).minX ≤ a ∧ a ≤ (computeBounds (s0 :: rest)).maxX := by
  simp only [computeBounds]
  have hmin : List.foldl min (min s0.x1 s0.x2) (rest.flatMap fun u => [u.x1, u.x2]) ≤ a := by
    rcases ha with rfl | rfl | hmem
    · exact le_trans (foldl_min_le_init _ _) (min_le_left _ _)
    · exact le_trans (foldl_min_le_init _ _) (min_le_right _ _)
    · exact foldl_min_le_mem hmem _
  have hmax : a ≤ List.foldl max (max s0.x1 s0.x2) (rest.flatMap fun u => [u.x1, u.x2]) := by
    rcases ha with rfl | rfl | hmem
    · exact le_trans (le_max_left _ _) (init_le_foldl_max _ _)
    · exact le_trans (le_max_right _ _) (init_le_foldl_max _ _)
    · exact mem_le_foldl_max hmem _
  constructor <;> dsimp only <;> linarith

lemma computeBounds_cons_le_y {s0 : CastlePathData} {rest : List CastlePathData}
    {a : ℝ} (ha : a = s0.y1 ∨ a = s0.y2 ∨ a ∈ rest.flatMap fun u => [u.y1, u.y2]) :
    (computeBounds (s0 :: rest)).minY ≤ a ∧ a ≤ (computeBounds (s0 :: rest)).maxY := by
  simp only [computeBounds]
  have hmin : List.foldl min (min s0.y1 s0.y2) (rest.flatMap fun u => [u.y1, u.y2]) ≤ a := by
    rcases ha with rfl | rfl | hmem
    · exact le_trans (foldl_min_le_init _ _) (min_le_left _ _)
    · exact le_trans (foldl_min_le_init _ _) (min_le_right _ _)
    · exact foldl_min_le_mem hmem _
  have hmax : a ≤ List.foldl max (max s0.y1 s0.y2) (rest.flatMap fun u => [u.y1, u.y2]) := by
    rcases ha with rfl | rfl | hmem
    · exact le_trans (le_max_left _ _) (init_le_foldl_max _ _)
    · exact le_trans (le_max_right _ _) (init_le_foldl_max _ _)
    · exact mem_le_foldl_max hmem _
  constructor <;> dsimp only <;> linarith

/-- Claim C10: the fill-image bounds scan only segment endpoints, so every
endpoint lies within the 0.1-padded bounds; but a bend point may lie
strictly outside them, witnessed by a single quadratic whose control point
extends above all endpoints. -/
theorem computeBounds_endpoints_only
    (l : List CastlePathData) (seg : CastlePathData) (hmem : seg ∈ l) :
    ((computeBounds l).minX ≤ seg.x1 ∧ seg.x1 ≤ (computeBounds l).maxX ∧
     (computeBounds l).minX ≤ seg.x2 ∧ seg.x2 ≤ (computeBounds l).maxX ∧
     (computeBounds l).minY ≤ seg.y1 ∧ seg.y1 ≤ (computeBounds l).maxY ∧
     (computeBounds l).minY ≤ seg.y2 ∧ seg.y2 ≤ (computeBounds l).maxY) ∧
    ((quadSegment 0 0 1 0 (1/2, 5) none false).bp = some (1/2, 5) ∧
     (computeBounds [quadSegment 0 0 1 0 (1/2, 5) none false]).maxY < 5) := by
  refine ⟨?_, rfl, ?_⟩
  · match l, hmem with
    | s0 :: rest, hmem =>
      rcases List.mem_cons.mp hmem with rfl | hmem
      · refine ⟨(computeBounds_cons_le_x (Or.inl rfl)).1,
          (computeBounds_cons_le_x (Or.inl rfl)).2,
          (computeBounds_cons_le_x (Or.inr (Or.inl rfl))).1,
          (computeBounds_cons_le_x (Or.inr (Or.inl rfl))).2,
          (computeBounds_cons_le_y (Or.inl rfl)).1,
          (computeBounds_cons_le_y (Or.inl rfl)).2,
          (computeBounds_cons_le_y (Or.inr (Or.inl rfl))).1,
          (computeBounds_cons_le_y (Or.inr (Or.inl rfl))).2⟩
      · have hx1 : seg.x1 ∈ rest.flatMap fun u => [u.x1, u.x2] :=
          List.mem_flatMap.mpr ⟨seg, hmem, by simp⟩
        have hx2 : seg.x2 ∈ rest.flatMap fun u => [u.x1, u.x2] :=
          List.mem_flatMap.mpr ⟨seg, hmem, by simp⟩
        have hy1 : seg.y1 ∈ rest.flatMap fun u => [u.y1, u.y2] :=
          List.mem_flatMap.mpr ⟨seg, hmem, by simp⟩
        have hy2 : seg.y2 ∈ rest.flatMap fun u => [u.y1, u.y2] :=
          List.mem_flatMap.mpr ⟨seg, hmem, by simp⟩
        exact ⟨(computeBounds_cons_le_x (Or.inr (Or.inr hx1))).1,
          (computeBounds_cons_le_x (Or.inr (Or.inr hx1))).2,
          (computeBounds_cons_le_x (Or.inr (Or.inr hx2))).1,
          (computeBounds_cons_le_x (Or.inr (Or.inr hx2))).2,
          (computeBounds_cons_le_y (Or.inr (Or.inr hy1))).1,
          (computeBounds_cons_le_y (Or.inr (Or.inr hy1))).2,
          (computeBounds_cons_le_y (Or.inr (Or.inr hy2))).1,
          (computeBounds_cons_le_y (Or.inr (Or.inr hy2))).2⟩
  · simp only [computeBounds, quadSegment]
    norm_num

/-- Witness for C10 at a concrete segment list: the single segment of the
list is inside the padded bounds computed for it. -/
theorem computeBounds_endpoints_only_witness :
    straightSegment 0 0 1 2 none false ∈ [straightSegment 0 0 1 2 none false] ∧
    ((computeBounds [straightSegment 0 0 1 2 none false]).minX ≤
        (straightSegment 0 0 1 2 none false).x1 ∧
      (straightSegment 0 0 1 2 none false).x1 ≤
        (computeBounds [straightSegment 0 0 1 2 none false]).maxX ∧
      (computeBounds [straightSegment 0 0 1 2 none false]).minX ≤
        (straightSegment 0 0 1 2 none false).x2 ∧
      (straightSegment 0 0 1 2 none false).x2 ≤
        (computeBounds [straightSegment 0 0 1 2 none false]).maxX ∧
      (computeBounds [straightSegment 0 0 1 2 none false]).minY ≤
        (straightSegment 0 0 1 2 none false).y1 ∧
      (straightSegment 0 0 1 2 none false).y1 ≤
        (computeBounds [straightSegment 0 0 1 2 none false]).maxY ∧
      (computeBounds [straightSegment 0 0 1 2 none false]).minY ≤
        (straightSegment 0 0 1 2 none false).y2 ∧
      (straightSegment 0 0 1 2 none false).y2 ≤
        (computeBounds [straightSegment 0 0 1 2 none false]).maxY) :=
  ⟨List.mem_singleton.mpr rfl,
   (computeBounds_endpoints_only [straightSegment 0 0 1 2 none false]
      (straightSegment 0 0 1 2 none false) (List.mem_singleton.mpr rfl)).1⟩

/-! ### Color subsystem (mapColors.ts).  Color strings are represented by
the RGB triples `hexToRgb` parses them to. -/

@[ext] structure Lab where
  L : ℝ
  a : ℝ
  b : ℝ

/-- JS `Math.cbrt` (sign-preserving cube root). -/
noncomputable def cbrt (t : ℝ) : ℝ :=
  if t < 0 then -((-t) ^ ((1 : ℝ) / 3)) else t ^ ((1 : ℝ) / 3)

/-- sRGB gamma expansion of one channel value scaled to [0,1]
(mapColors.ts `rgb2lab`, first block). -/
noncomputable def gammaExpand (t : ℝ) : ℝ :=
  if t > 0.04045 then ((t + 0.055) / 1.055) ^ (2.4 : ℝ) else t / 12.92

/-- XYZ→Lab transfer function (mapColors.ts `rgb2lab`, third block). -/
noncomputable def labF (t : ℝ) : ℝ :=
  if t > 0.008856 then cbrt t else (903.3 * t + 16) / 116

/-- mapColors.ts `rgb2lab` (channels 0-255, D65 white). -/
noncomputable def rgb2lab (r g b : ℕ) : Lab :=
  let rl := gammaExpand ((r : ℝ) / 255)
  let gl := gammaExpand ((g : ℝ) / 255)
  let bl := gammaExpand ((b : ℝ) / 255)
  let x := (rl * 0.4124564 + gl * 0.3575761 + bl * 0.1804375) / 0.95047
  let y := rl * 0.2126729 + gl * 0.7151522 + bl * 0.0721750
  let z := (rl * 0.0193339 + gl * 0.1191920 + bl * 0.9503041) / 1.08883
  let fx := labF x
  let fy := labF y
  let fz := labF z
  ⟨116 * fy - 16, 500 * (fx - fy), 200 * (fy - fz)⟩

/-- mapColors.ts `deltaE`: CIE94 color difference with graphic-arts
weighting (kL=1, K1=0.045, K2=0.015). -/
noncomputable def deltaE (lab1 lab2 : Lab) : ℝ :=
  let dL := lab1.L - lab2.L
  let da := lab1.a - lab2.a
  let db := lab1.b - lab2.b
  let c1 := Real.sqrt (lab1.a * lab1.a + lab1.b * lab1.b)
  let c2 := Real.sqrt (lab2.a * lab2.a + lab2.b * lab2.b)
  let dC := c1 - c2
  let dH2 := da * da + db * db - dC * dC
  let dH2c := if dH2 < 0 then (0 : ℝ) else dH2
  let sL : ℝ := 1
  let sC := 1 + 0.045 * c1
  let sH := 1 + 0.015 * c1
  let result := dL / sL * (dL / sL) + dC / sC * (dC / sC) + dH2c / (sH * sH)
  Real.sqrt (max 0 result)

lemma deltaE_nonneg (l1 l2 : Lab) : 0 ≤ deltaE l1 l2 := Real.sqrt_nonneg _

lemma deltaE_self_eq_zero (lab : Lab) : deltaE lab lab = 0 := by
  simp [deltaE]

/-- Counterexample for claim C4: CIE94 as implemented is not symmetric
even up to floating-point tolerance — the two orders of the same pair of
Lab colors give 200/29 ≈ 6.90 and 10. -/
theorem deltaE_not_symmetric :
    deltaE ⟨0, 10, 0⟩ ⟨0, 0, 0⟩ = 200 / 29 ∧
    deltaE ⟨0, 0, 0⟩ ⟨0, 10, 0⟩ = 10 ∧
    (200 / 29 : ℝ) ≠ 10 := by
  have h100 : Real.sqrt (10 * 10 + 0 * 0 : ℝ) = 10 := by
    rw [show (10 * 10 + 0 * 0 : ℝ) = 10 ^ 2 by norm_num]
    exact Real.sqrt_sq (by norm_num)
  have h0 : Real.sqrt (0 * 0 + 0 * 0 : ℝ) = 0 := by
    rw [show (0 * 0 + 0 * 0 : ℝ) = 0 by norm_num]
    exact Real.sqrt_zero
  have h40000 : Real.sqrt 40000 = 200 := by
    rw [show (40000 : ℝ) = 200 ^ 2 by norm_num]
    exact Real.sqrt_sq (by norm_num)
  have h841 : Real.sqrt 841 = 29 := by
    rw [show (841 : ℝ) = 29 ^ 2 by norm_num]
    exact Real.sqrt_sq (by norm_num)
  have h100s : Real.sqrt 100 = 10 := by
    rw [show (100 : ℝ) = 10 ^ 2 by norm_num]
    exact Real.sqrt_sq (by norm_num)
  refine ⟨?_, ?_, by norm_num⟩
  · simp only [deltaE, h100, h0]
    norm_num
    rw [h40000, h841]
  · simp only [deltaE, h100, h0]
    norm_num
    exact h100s

/-- Claim C4 (amended): deltaE returns 0 for identical inputs, and is
symmetric whenever its two arguments have equal chroma C₁ = C₂; it is not
symmetric in general, because the weights sC and sH are computed from the
first argument's chroma only. -/
theorem deltaE_self_and_symm_of_chroma_eq :
    (∀ lab : Lab, deltaE lab lab = 0) ∧
    (∀ lab1 lab2 : Lab,
        Real.sqrt (lab1.a * lab1.a + lab1.b * lab1.b) =
          Real.sqrt (lab2.a * lab2.a + lab2.b * lab2.b) →
        deltaE lab1 lab2 = deltaE lab2 lab1) := by
  refine ⟨deltaE_self_eq_zero, ?_⟩
  intro l1 l2 h
  simp only [deltaE, h, sub_self]
  have ha : (l1.a - l2.a) * (l1.a - l2.a) = (l2.a - l1.a) * (l2.a - l1.a) := by ring
  have hb : (l1.b - l2.b) * (l1.b - l2.b) = (l2.b - l1.b) * (l2.b - l1.b) := by ring
  have hL : (l1.L - l2.L) / 1 * ((l1.L - l2.L) / 1) =
      (l2.L - l1.L) / 1 * ((l2.L - l1.L) / 1) := by ring
  rw [ha, hb, hL]

/-- Witness for C4: two concrete Lab colors with equal chroma on which the
amended symmetry statement is discharged. -/
theorem deltaE_symm_witness :
    Real.sqrt ((Lab.mk 5 3 4).a * (Lab.mk 5 3 4).a + (Lab.mk 5 3 4).b * (Lab.mk 5 3 4).b) =
      Real.sqrt ((Lab.mk 0 5 0).a * (Lab.mk 0 5 0).a + (Lab.mk 0 5 0).b * (Lab.mk 0 5 0).b) ∧
    deltaE ⟨5, 3, 4⟩ ⟨0, 5, 0⟩ = deltaE ⟨0, 5, 0⟩ ⟨5, 3, 4⟩ := by
  have h : Real.sqrt ((Lab.mk 5 3 4).a * (Lab.mk 5 3 4).a + (Lab.mk 5 3 4).b * (Lab.mk 5 3 4).b) =
      Real.sqrt ((Lab.mk 0 5 0).a * (Lab.mk 0 5 0).a + (Lab.mk 0 5 0).b * (Lab.mk 0 5 0).b) := by
    norm_num
  exact ⟨h, deltaE_self_and_symm_of_chroma_eq.2 ⟨5, 3, 4⟩ ⟨0, 5, 0⟩ h⟩

/-! ### deltaE vanishes only on identical Lab colors -/

lemma deltaE_eq_zero_imp {l1 l2 : Lab} (h : deltaE l1 l2 = 0) : l1 = l2 := by
  have hc1n : 0 ≤ Real.sqrt (l1.a * l1.a + l1.b * l1.b) := Real.sqrt_nonneg _
  have h045 : (0 : ℝ) ≤ 0.045 * Real.sqrt (l1.a * l1.a + l1.b * l1.b) :=
    mul_nonneg (by norm_num) hc1n
  have h015 : (0 : ℝ) ≤ 0.015 * Real.sqrt (l1.a * l1.a + l1.b * l1.b) :=
    mul_nonneg (by norm_num) hc1n
  simp only [deltaE] at h
  set c1 := Real.sqrt (l1.a * l1.a + l1.b * l1.b) with hc1def
  set c2 := Real.sqrt (l2.a * l2.a + l2.b * l2.b) with hc2def
  set dL := l1.L - l2.L with hdLdef
  set da := l1.a - l2.a with hdadef
  set db := l1.b - l2.b with hdbdef
  set dC := c1 - c2 with hdCdef
  set dH2 := da * da + db * db - dC * dC with hdH2def
  set sC := 1 + 0.045 * c1 with hsCdef
  set sH := 1 + 0.015 * c1 with hsHdef
  have hsC : (0 : ℝ) < sC := by rw [hsCdef]; linarith
  have hsH : (0 : ℝ) < sH := by rw [hsHdef]; linarith
  have hdH2c : (0 : ℝ) ≤ (if dH2 < 0 then (0 : ℝ) else dH2) := by
    by_cases hcase : dH2 < 0
    · rw [if_pos hcase]
    · rw [if_neg hcase]; exact not_lt.mp hcase
  have hres := (max_le_iff.mp (Real.sqrt_eq_zero'.mp h)).2
  have ht1 : 0 ≤ dL / 1 * (dL / 1) := mul_self_nonneg _
  have ht2 : 0 ≤ dC / sC * (dC / sC) := mul_self_nonneg _
  have ht3 : 0 ≤ (if dH2 < 0 then (0 : ℝ) else dH2) / (sH * sH) :=
    div_nonneg hdH2c (mul_nonneg hsH.le hsH.le)
  have h1 : dL / 1 * (dL / 1) = 0 := by linarith
  have h2 : dC / sC * (dC / sC) = 0 := by linarith
  have h3 : (if dH2 < 0 then (0 : ℝ) else dH2) / (sH * sH) = 0 := by linarith
  rw [div_one] at h1
  have hdL : dL = 0 := mul_self_eq_zero.mp h1
  have hdC : dC = 0 := by
    rcases div_eq_zero_iff.mp (mul_self_eq_zero.mp h2) with h' | h'
    · exact h'
    · exact absurd h' (ne_of_gt hsC)
  have hdH2c0 : (if dH2 < 0 then (0 : ℝ) else dH2) = 0 := by
    rcases div_eq_zero_iff.mp h3 with h' | h'
    · exact h'
    · exact absurd h' (ne_of_gt (mul_pos hsH hsH))
  have hdCC : dC * dC = 0 := by rw [hdC]; ring
  have hsum : da * da + db * db ≤ 0 := by
    by_cases hcase : dH2 < 0
    · rw [hdH2def] at hcase; linarith
    · rw [if_neg hcase] at hdH2c0
      rw [hdH2def] at hdH2c0; linarith
  have hda : da = 0 := by
    have h' : da * da = 0 :=
      le_antisymm (by linarith [mul_self_nonneg db]) (mul_self_nonneg da)
    exact mul_self_eq_zero.mp h'
  have hdb : db = 0 := by
    have h' : db * db = 0 :=
      le_antisymm (by linarith [mul_self_nonneg da]) (mul_self_nonneg db)
    exact mul_self_eq_zero.mp h'
  rw [hdLdef] at hdL
  rw [hdadef] at hda
  rw [hdbdef] at hdb
  ext
  · linarith
  · linarith
  · linarith

lemma deltaE_pos_of_ne {l1 l2 : Lab} (h : l1 ≠ l2) : 0 < deltaE l1 l2 :=
  lt_of_le_of_ne (deltaE_nonneg l1 l2) fun e => h (deltaE_eq_zero_imp e.symm)

/-! ### Hex parsing and the palette matcher (mapColors.ts) -/

/-- Value of one hex digit, as JS `parseInt(_, 16)` sees it
(case-insensitive). -/
def hexDigitVal (ch : Char) : ℕ :=
  if '0' ≤ ch ∧ ch ≤ '9' then ch.toNat - '0'.toNat
  else if 'a' ≤ ch ∧ ch ≤ 'f' then ch.toNat - 'a'.toNat + 10
  else if 'A' ≤ ch ∧ ch ≤ 'F' then ch.toNat - 'A'.toNat + 10
  else 0

/-- mapColors.ts `hexToRgb`: strip '#', parse three 2-digit hex pairs.
JS `parseInt(_, 16)` is case-insensitive, which is why palette hexes
differing only in letter case parse to the same channel values.
`parseInt`'s NaN on malformed input is not modelled: strings with fewer
than six hex digits map to (0,0,0) here. -/
def hexToRgb (hex : String) : ℕ × ℕ × ℕ :=
  match hex.toList.filter (fun ch => ch != '#') with
  | c1 :: c2 :: c3 :: c4 :: c5 :: c6 :: _ =>
      (16 * hexDigitVal c1 + hexDigitVal c2,
       16 * hexDigitVal c3 + hexDigitVal c4,
       16 * hexDigitVal c5 + hexDigitVal c6)
  | _ => (0, 0, 0)

/-- The Lab color of a hex string, as `mapColorToPalette` computes it
(hexToRgb then rgb2lab). -/
noncomputable def labOfHex (hex : String) : Lab :=
  rgb2lab (hexToRgb hex).1 (hexToRgb hex).2.1 (hexToRgb hex).2.2

/-- The scan loop of `mapColorToPalette`: walk the distance list left to
right, updating best index/distance on a strictly smaller distance.  The
source initializes the best distance to Infinity; EReal's ⊤ models that. -/
noncomputable def scanPalette : List ℝ → ℕ → ℕ → EReal → ℕ × EReal
  | [], _, bi, bd => (bi, bd)
  | d :: rest, i, bi, bd =>
      if (d : EReal) < bd then scanPalette rest (i + 1) i (d : EReal)
      else scanPalette rest (i + 1) bi bd

/-- mapColors.ts `mapColorToPalette`: nearest palette entry under CIE94,
returning (index, distance). -/
noncomputable def mapColorToPalette (hex : String) (paletteHexColors : List String) :
    ℕ × EReal :=
  scanPalette (paletteHexColors.map fun p => deltaE (labOfHex hex) (labOfHex p)) 0 0 ⊤

/-- castle/format.ts `CastleColor`: r,g,b,a floats in [0,1]. -/
structure CastleColor where
  r : ℝ
  g : ℝ
  b : ℝ
  a : ℝ

/-- mapColors.ts `ColorMapping`. -/
structure ColorMapping where
  original : String
  paletteIndex : ℕ
  paletteHex : String
  castleColor : CastleColor
  deltaE : EReal

/-- One entry of the color map, exactly as `buildColorMap` constructs it. -/
noncomputable def mkColorMapping (hex : String) (paletteHex : List String)
    (paletteCastle : List CastleColor) : ColorMapping :=
  { original := hex
    paletteIndex := (mapColorToPalette hex paletteHex).1
    paletteHex := paletteHex.getD (mapColorToPalette hex paletteHex).1 ""
    castleColor := paletteCastle.getD (mapColorToPalette hex paletteHex).1 ⟨0, 0, 0, 0⟩
    deltaE := (mapColorToPalette hex paletteHex).2 }

/-- mapColors.ts `buildColorMap`, as an association list in insertion
order.  The `normalizeColor` call it performs on each input is the
identity here because parseSvg only ever inserts already-normalized colors
into the document's color set. -/
noncomputable def buildColorMap (svgColors : List String) (paletteHex : List String)
    (paletteCastle : List CastleColor) : List (String × ColorMapping) :=
  svgColors.foldl
    (fun m c =>
      if m.any (fun e2 => e2.1 == c) then m
      else m ++ [(c, mkColorMapping c paletteHex paletteCastle)])
    []

/-- Complete characterization of the scan loop: the result is at most
every scanned distance and at most the incoming best; and either nothing
beat the incoming best, or the result is the first occurrence of a
distance strictly below everything before it. -/
lemma scanPalette_spec (dists : List ℝ) : ∀ (i bi : ℕ) (bd : EReal),
    (∀ k, (hk : k < dists.length) →
        (scanPalette dists i bi bd).2 ≤ ((dists.get ⟨k, hk⟩ : ℝ) : EReal))
    ∧ (scanPalette dists i bi bd).2 ≤ bd
    ∧ (scanPalette dists i bi bd = (bi, bd)
       ∨ ∃ k, ∃ hk : k < dists.length,
           (scanPalette dists i bi bd).1 = i + k
           ∧ (scanPalette dists i bi bd).2 = ((dists.get ⟨k, hk⟩ : ℝ) : EReal)
           ∧ (∀ j, (hj : j < k) →
               (scanPalette dists i bi bd).2 < ((dists.get ⟨j, lt_trans hj hk⟩ : ℝ) : EReal))
           ∧ (scanPalette dists i bi bd).2 < bd) := by
  induction dists with
  | nil =>
    intro i bi bd
    refine ⟨?_, le_refl _, Or.inl rfl⟩
    intro k hk
    simp at hk
  | cons d rest ih =>
    intro i bi bd
    by_cases hd : (d : EReal) < bd
    · rw [show scanPalette (d :: rest) i bi bd = scanPalette rest (i + 1) i (d : EReal) by
        rw [scanPalette, if_pos hd]]
      obtain ⟨hA, hB, hC⟩ := ih (i + 1) i (d : EReal)
      refine ⟨?_, le_of_lt (lt_of_le_of_lt hB hd), ?_⟩
      · intro k hk
        match k with
        | 0 => exact hB
        | k' + 1 => exact hA k' (by simp at hk; omega)
      · rcases hC with heq | ⟨k', hk', h1, h2, h3, h4⟩
        · refine Or.inr ⟨0, by simp, ?_, ?_, ?_, ?_⟩
          · rw [heq]
            simp
          · rw [heq]
            simp
          · intro j hj
            exact absurd hj (Nat.not_lt_zero j)
          · rw [heq]
            exact hd
        · refine Or.inr ⟨k' + 1, by simp; omega, ?_, h2, ?_, lt_trans h4 hd⟩
          · rw [h1]
            omega
          · intro j hj
            match j with
            | 0 => exact h4
            | j' + 1 => exact h3 j' (by omega)
    · rw [show scanPalette (d :: rest) i bi bd = scanPalette rest (i + 1) bi bd by
        rw [scanPalette, if_neg hd]]
      obtain ⟨hA, hB, hC⟩ := ih (i + 1) bi bd
      have hdb : bd ≤ (d : EReal) := not_lt.mp hd
      refine ⟨?_, hB, ?_⟩
      · intro k hk
        match k with
        | 0 => exact le_trans hB hdb
        | k' + 1 => exact hA k' (by simp at hk; omega)
      · rcases hC with heq | ⟨k', hk', h1, h2, h3, h4⟩
        · exact Or.inl heq
        · refine Or.inr ⟨k' + 1, by simp; omega, ?_, h2, ?_, h4⟩
          · rw [h1]
            omega
          · intro j hj
            match j with
            | 0 => exact lt_of_lt_of_le h4 hdb
            | j' + 1 => exact h3 j' (by omega)

lemma buildColorMap_mem_aux (paletteHex : List String) (palC : List CastleColor) :
    ∀ (colors : List String) (acc : List (String × ColorMapping)),
      (∀ e ∈ acc, e.2 = mkColorMapping e.1 paletteHex palC) →
      ∀ e ∈ colors.foldl
          (fun m c =>
            if m.any (fun e2 => e2.1 == c) then m
            else m ++ [(c, mkColorMapping c paletteHex palC)]) acc,
        e.2 = mkColorMapping e.1 paletteHex palC := by
  intro colors
  induction colors with
  | nil =>
    intro acc hacc e he
    exact hacc e he
  | cons c rest ih =>
    intro acc hacc e he
    simp only [List.foldl_cons] at he
    by_cases hc : acc.any (fun e2 => e2.1 == c)
    · rw [if_pos hc] at he
      exact ih acc hacc e he
    · rw [if_neg hc] at he
      refine ih _ ?_ e he
      intro e' he'
      rcases List.mem_append.mp he' with h' | h'
      · exact hacc e' h'
      · rw [List.mem_singleton.mp h']

lemma buildColorMap_mem {colors paletteHex : List String} {palC : List CastleColor}
    {e : String × ColorMapping} (he : e ∈ buildColorMap colors paletteHex palC) :
    e.2 = mkColorMapping e.1 paletteHex palC :=
  buildColorMap_mem_aux paletteHex palC colors [] (by simp) e he

/-- Claim C3 (amended): every color-map entry comes from a left-to-right
linear scan keeping the palette entry of minimum CIE94 ΔE with ties broken
by lowest index; every entry's ΔE is ≥ 0; and when the input hex occurs in
the palette the entry's ΔE is below 10⁻⁶ and its index is the first
palette slot whose Lab conversion coincides with the input's.  (Palette
hexes are compared after case-insensitive parsing to RGB, so that slot
need not be the first slot whose hex string equals the input — see the
counterexample.) -/
theorem buildColorMap_min_scan (colors paletteHex : List String) (palC : List CastleColor)
    (e : String × ColorMapping) (he : e ∈ buildColorMap colors paletteHex palC) :
    0 ≤ e.2.deltaE
    ∧ (∀ j, (hj : j < paletteHex.length) →
        e.2.deltaE ≤ ((deltaE (labOfHex e.1) (labOfHex (paletteHex.get ⟨j, hj⟩)) : ℝ) : EReal))
    ∧ (∀ j, (hj : j < paletteHex.length) → j < e.2.paletteIndex →
        e.2.deltaE < ((deltaE (labOfHex e.1) (labOfHex (paletteHex.get ⟨j, hj⟩)) : ℝ) : EReal))
    ∧ (e.1 ∈ paletteHex →
        e.2.deltaE < (((1 : ℝ) / 1000000 : ℝ) : EReal)
        ∧ (∃ hi : e.2.paletteIndex < paletteHex.length,
            labOfHex (paletteHex.get ⟨e.2.paletteIndex, hi⟩) = labOfHex e.1)
        ∧ (∀ j, (hj : j < paletteHex.length) → j < e.2.paletteIndex →
            labOfHex (paletteHex.get ⟨j, hj⟩) ≠ labOfHex e.1)) := by
  have hmk := buildColorMap_mem he
  obtain ⟨hA, hB, hC⟩ :=
    scanPalette_spec (paletteHex.map fun p => deltaE (labOfHex e.1) (labOfHex p)) 0 0 ⊤
  simp only [List.get_map, List.length_map] at hA hC
  set S := scanPalette (paletteHex.map fun p => deltaE (labOfHex e.1) (labOfHex p)) 0 0 ⊤
    with hSdef
  have hidx : e.2.paletteIndex = S.1 := by rw [hmk]; rfl
  have hdE : e.2.deltaE = S.2 := by rw [hmk]; rfl
  have hS0 : (0 : EReal) ≤ S.2 := by
    rcases hC with heq | ⟨k, hk, h1, h2, h3, h4⟩
    · rw [heq]; exact le_top
    · rw [h2]; exact EReal.coe_nonneg.mpr (deltaE_nonneg _ _)
  refine ⟨?_, ?_, ?_, ?_⟩
  · rw [hdE]; exact hS0
  · intro j hj
    rw [hdE]
    exact hA j hj
  · intro j hj hlt
    rw [hdE]
    rcases hC with heq | ⟨k, hk, h1, h2, h3, h4⟩
    · rw [hidx, heq] at hlt
      exact absurd hlt (Nat.not_lt_zero j)
    · have hjk : j < k := by rw [hidx, h1] at hlt; omega
      exact h3 j hjk
  · intro hmem
    obtain ⟨⟨j0, hj0len⟩, hj0get⟩ := List.mem_iff_get.mp hmem
    have hd0 : deltaE (labOfHex e.1) (labOfHex (paletteHex.get ⟨j0, hj0len⟩)) = 0 := by
      rw [hj0get]
      exact deltaE_self_eq_zero _
    have hle0 : S.2 ≤ ((0 : ℝ) : EReal) := by
      have h' := hA j0 hj0len
      rw [hd0] at h'
      exact h'
    have hSeq : S.2 = ((0 : ℝ) : EReal) :=
      le_antisymm hle0 (by rw [EReal.coe_zero]; exact hS0)
    refine ⟨?_, ?_, ?_⟩
    · rw [hdE, hSeq]
      exact EReal.coe_lt_coe_iff.mpr (by norm_num)
    · rcases hC with heq | ⟨k, hk, h1, h2, h3, h4⟩
      · rw [heq] at hSeq
        exact absurd hSeq (by simp)
      · have hix : e.2.paletteIndex = k := by rw [hidx, h1]; omega
        refine ⟨by rw [hix]; exact hk, ?_⟩
        have h2' := h2
        rw [hSeq] at h2'
        have hz := (EReal.coe_eq_coe_iff.mp h2').symm
        have hlab := deltaE_eq_zero_imp hz
        simp only [hix]
        exact hlab.symm
    · intro j hj hltidx heqlab
      rcases hC with heq | ⟨k, hk, h1, h2, h3, h4⟩
      · rw [hidx, heq] at hltidx
        exact absurd hltidx (Nat.not_lt_zero j)
      · have hjk : j < k := by rw [hidx, h1] at hltidx; omega
        have hlt := h3 j hjk
        rw [hSeq] at hlt
        have hpos := EReal.coe_lt_coe_iff.mp hlt
        rw [heqlab, deltaE_self_eq_zero] at hpos
        exact lt_irrefl 0 hpos

/-- Counterexample for claim C3: palette hexes are parsed
case-insensitively (JS `parseInt(_, 16)`), so with palette
["#FF0000", "#ff0000"] and normalized input "#ff0000" the matcher keeps
index 0, which is not the first (and only) slot whose hex string matches
the input — that is slot 1. -/
theorem mapColorToPalette_not_first_matching_slot :
    (mapColorToPalette "#ff0000" ["#FF0000", "#ff0000"]).1 = 0 ∧
    List.get ["#FF0000", "#ff0000"] ⟨0, by decide⟩ ≠ "#ff0000" ∧
    List.get ["#FF0000", "#ff0000"] ⟨1, by decide⟩ = "#ff0000" := by
  have hrgb : hexToRgb "#FF0000" = hexToRgb "#ff0000" := by decide
  have hlab : labOfHex "#FF0000" = labOfHex "#ff0000" := by
    simp only [labOfHex, hrgb]
  refine ⟨?_, by decide, by decide⟩
  simp only [mapColorToPalette, List.map_cons, List.map_nil, hlab, deltaE_self_eq_zero]
  rw [scanPalette, if_pos (EReal.coe_lt_top 0)]
  rw [scanPalette, if_neg (lt_irrefl _)]
  rw [scanPalette]

/-- Witness for C3 at a concrete color list and palette: the single map
entry for "#ff0000" against the palette ["#000000", "#ff0000"] has
nonnegative ΔE and, since the input hex occurs in the palette, ΔE below
10⁻⁶. -/
theorem buildColorMap_min_scan_witness :
    ("#ff0000", mkColorMapping "#ff0000" ["#000000", "#ff0000"] []) ∈
        buildColorMap ["#ff0000"] ["#000000", "#ff0000"] [] ∧
    0 ≤ ("#ff0000", mkColorMapping "#ff0000" ["#000000", "#ff0000"] []).2.deltaE ∧
    ("#ff0000", mkColorMapping "#ff0000" ["#000000", "#ff0000"] []).2.deltaE <
      (((1 : ℝ) / 1000000 : ℝ) : EReal) := by
  have hm : ("#ff0000", mkColorMapping "#ff0000" ["#000000", "#ff0000"] []) ∈
      buildColorMap ["#ff0000"] ["#000000", "#ff0000"] [] := by
    simp [buildColorMap]
  have h := buildColorMap_min_scan ["#ff0000"] ["#000000", "#ff0000"] [] _ hm
  exact ⟨hm, h.1, (h.2.2.2 (by simp)).1⟩

/-! ### Cubic → quadratic conversion (convertPaths.ts `cubicToQuadratic`) -/

/-- convertPaths.ts `cubicToQuadratic`: best-fit quadratic control point,
midpoint error test, adaptive subdivision by de Casteljau.  The emission
guard is the source's `error <= tolerance || depth > 8`. -/
noncomputable def cubicToQuadratic (x0 y0 x1 y1 x2 y2 x3 y3 tolerance : ℝ)
    (color : Option (List ℝ)) (isFill : Bool) (depth : ℕ) : List CastlePathData :=
  let qx := (3 * x1 - x0 + 3 * x2 - x3) / 4
  let qy := (3 * y1 - y0 + 3 * y2 - y3) / 4
  let cx := 0.125 * x0 + 0.375 * x1 + 0.375 * x2 + 0.125 * x3
  let cy := 0.125 * y0 + 0.375 * y1 + 0.375 * y2 + 0.125 * y3
  let qmx := 0.25 * x0 + 0.5 * qx + 0.25 * x3
  let qmy := 0.25 * y0 + 0.5 * qy + 0.25 * y3
  let error := Real.sqrt ((cx - qmx) ^ 2 + (cy - qmy) ^ 2)
  if h : error ≤ tolerance ∨ depth > 8 then
    [quadSegment x0 y0 x3 y3 (qx, qy) color isFill]
  else
    let m01x := (x0 + x1) / 2
    let m01y := (y0 + y1) / 2
    let m12x := (x1 + x2) / 2
    let m12y := (y1 + y2) / 2
    let m23x := (x2 + x3) / 2
    let m23y := (y2 + y3) / 2
    let m012x := (m01x + m12x) / 2
    let m012y := (m01y + m12y) / 2
    let m123x := (m12x + m23x) / 2
    let m123y := (m12y + m23y) / 2
    let mx := (m012x + m123x) / 2
    let my := (m012y + m123y) / 2
    cubicToQuadratic x0 y0 m01x m01y m012x m012y mx my tolerance color isFill (depth + 1) ++
      cubicToQuadratic mx my m123x m123y m23x m23y x3 y3 tolerance color isFill (depth + 1)
termination_by 9 - depth
decreasing_by
  all_goals
    push_neg at h
    omega

/-- Modelled from the spec's words for claim C1: identical to
`cubicToQuadratic` except that the emission guard tests `depth ≥ 8` where
the source tests `depth > 8`. -/
noncomputable def cubicToQuadraticSpec (x0 y0 x1 y1 x2 y2 x3 y3 tolerance : ℝ)
    (color : Option (List ℝ)) (isFill : Bool) (depth : ℕ) : List CastlePathData :=
  let qx := (3 * x1 - x0 + 3 * x2 - x3) / 4
  let qy := (3 * y1 - y0 + 3 * y2 - y3) / 4
  let cx := 0.125 * x0 + 0.375 * x1 + 0.375 * x2 + 0.125 * x3
  let cy := 0.125 * y0 + 0.375 * y1 + 0.375 * y2 + 0.125 * y3
  let qmx := 0.25 * x0 + 0.5 * qx + 0.25 * x3
  let qmy := 0.25 * y0 + 0.5 * qy + 0.25 * y3
  let error := Real.sqrt ((cx - qmx) ^ 2 + (cy - qmy) ^ 2)
  if h : error ≤ tolerance ∨ depth ≥ 8 then
    [quadSegment x0 y0 x3 y3 (qx, qy) color isFill]
  else
    let m01x := (x0 + x1) / 2
    let m01y := (y0 + y1) / 2
    let m12x := (x1 + x2) / 2
    let m12y := (y1 + y2) / 2
    let m23x := (x2 + x3) / 2
    let m23y := (y2 + y3) / 2
    let m012x := (m01x + m12x) / 2
    let m012y := (m01y + m12y) / 2
    let m123x := (m12x + m23x) / 2
    let m123y := (m12y + m23y) / 2
    let mx := (m012x + m123x) / 2
    let my := (m012y + m123y) / 2
    cubicToQuadraticSpec x0 y0 m01x m01y m012x m012y mx my tolerance color isFill (depth + 1) ++
      cubicToQuadraticSpec mx my m123x m123y m23x m23y x3 y3 tolerance color isFill (depth + 1)
termination_by 9 - depth
decreasing_by
  all_goals
    push_neg at h
    omega

/-- Claim C1 (amended): the converter computes the single best-fit control
Q = ((3P₁−P₀)+(3P₂−P₃))/4 and emits one quadratic (P₀,P₃) with bend Q when
the midpoint error is ≤ tolerance or depth > 8 (that is, ≥ 9, not ≥ 8);
since the best-fit quadratic's midpoint coincides with the cubic's
midpoint in exact arithmetic, the error is always 0, so every call with a
nonnegative tolerance emits exactly one quadratic segment without any
subdivision. -/
theorem cubicToQuadratic_single (x0 y0 x1 y1 x2 y2 x3 y3 tolerance : ℝ)
    (color : Option (List ℝ)) (isFill : Bool) (depth : ℕ) (ht : 0 ≤ tolerance) :
    cubicToQuadratic x0 y0 x1 y1 x2 y2 x3 y3 tolerance color isFill depth =
      [quadSegment x0 y0 x3 y3
        ((3 * x1 - x0 + 3 * x2 - x3) / 4, (3 * y1 - y0 + 3 * y2 - y3) / 4) color isFill] := by
  have hx : (0.125 * x0 + 0.375 * x1 + 0.375 * x2 + 0.125 * x3) -
      (0.25 * x0 + 0.5 * ((3 * x1 - x0 + 3 * x2 - x3) / 4) + 0.25 * x3) = 0 := by ring
  have hy : (0.125 * y0 + 0.375 * y1 + 0.375 * y2 + 0.125 * y3) -
      (0.25 * y0 + 0.5 * ((3 * y1 - y0 + 3 * y2 - y3) / 4) + 0.25 * y3) = 0 := by ring
  have herr : Real.sqrt
      (((0.125 * x0 + 0.375 * x1 + 0.375 * x2 + 0.125 * x3) -
          (0.25 * x0 + 0.5 * ((3 * x1 - x0 + 3 * x2 - x3) / 4) + 0.25 * x3)) ^ 2 +
        ((0.125 * y0 + 0.375 * y1 + 0.375 * y2 + 0.125 * y3) -
          (0.25 * y0 + 0.5 * ((3 * y1 - y0 + 3 * y2 - y3) / 4) + 0.25 * y3)) ^ 2) ≤
      tolerance := by
    rw [hx, hy]
    simpa using ht
  rw [cubicToQuadratic]
  rw [dif_pos (Or.inl herr)]

/-- Witness for C1: a concrete cubic with tolerance 0.05 yields exactly
one quadratic segment with the best-fit bend point. -/
theorem cubicToQuadratic_single_witness :
    (0 : ℝ) ≤ 0.05 ∧
    cubicToQuadratic 0 0 1 1 2 1 3 0 0.05 none false 0 =
      [quadSegment 0 0 3 0
        (((3 : ℝ) * 1 - 0 + 3 * 2 - 3) / 4, ((3 : ℝ) * 1 - 0 + 3 * 1 - 0) / 4) none false] :=
  ⟨by norm_num,
   cubicToQuadratic_single 0 0 1 1 2 1 3 0 0.05 none false 0 (by norm_num)⟩

lemma cubicToQuadratic_zero_len :
    ∀ n depth, depth + n = 9 →
      (cubicToQuadratic 0 0 0 0 0 0 0 0 (-1) none false depth).length = 2 ^ n := by
  intro n
  induction n with
  | zero =>
    intro depth hd
    have h9 : depth = 9 := by omega
    subst h9
    rw [cubicToQuadratic]
    rw [dif_pos (Or.inr (by norm_num))]
    rfl
  | succ k ih =>
    intro depth hd
    have hstep : cubicToQuadratic 0 0 0 0 0 0 0 0 (-1) none false depth =
        cubicToQuadratic 0 0 0 0 0 0 0 0 (-1) none false (depth + 1) ++
          cubicToQuadratic 0 0 0 0 0 0 0 0 (-1) none false (depth + 1) := by
      rw [cubicToQuadratic]
      rw [dif_neg (by
        push_neg
        refine ⟨lt_of_lt_of_le (by norm_num) (Real.sqrt_nonneg _), by omega⟩)]
      norm_num
    rw [hstep, List.length_append, ih (depth + 1) (by omega), pow_succ]
    omega

lemma cubicToQuadraticSpec_zero_len :
    ∀ n depth, depth + n = 8 →
      (cubicToQuadraticSpec 0 0 0 0 0 0 0 0 (-1) none false depth).length = 2 ^ n := by
  intro n
  induction n with
  | zero =>
    intro depth hd
    have h8 : depth = 8 := by omega
    subst h8
    rw [cubicToQuadraticSpec]
    rw [dif_pos (Or.inr (by norm_num))]
    rfl
  | succ k ih =>
    intro depth hd
    have hstep : cubicToQuadraticSpec 0 0 0 0 0 0 0 0 (-1) none false depth =
        cubicToQuadraticSpec 0 0 0 0 0 0 0 0 (-1) none false (depth + 1) ++
          cubicToQuadraticSpec 0 0 0 0 0 0 0 0 (-1) none false (depth + 1) := by
      rw [cubicToQuadraticSpec]
      rw [dif_neg (by
        push_neg
        refine ⟨lt_of_lt_of_le (by norm_num) (Real.sqrt_nonneg _), by omega⟩)]
      norm_num
    rw [hstep, List.length_append, ih (depth + 1) (by omega), pow_succ]
    omega

/-- Counterexample for claim C1: the source's emission guard is
`depth > 8`, not `depth ≥ 8`.  On a degenerate all-zero cubic with
tolerance −1 the source subdivides down to depth 9 and emits 512 = 2⁹
segments, while the claim's `depth ≥ 8` guard would stop at depth 8 with
256 = 2⁸ segments — so subdivision depth does exceed 8. -/
theorem cubicToQuadratic_depth_guard_counterexample :
    (cubicToQuadratic 0 0 0 0 0 0 0 0 (-1) none false 0).length = 512 ∧
    (cubicToQuadraticSpec 0 0 0 0 0 0 0 0 (-1) none false 0).length = 256 ∧
    (512 : ℕ) ≠ 256 := by
  refine ⟨?_, ?_, by norm_num⟩
  · have h := cubicToQuadratic_zero_len 9 0 rfl
    simpa using h
  · have h := cubicToQuadraticSpec_zero_len 8 0 rfl
    simpa using h

/-! ### Arc → quadratic conversion (convertPaths.ts `arcToQuadratic`) -/

/-- JS `Math.atan2` on finite arguments. -/
noncomputable def atan2 (y x : ℝ) : ℝ :=
  if 0 < x then Real.arctan (y / x)
  else if x < 0 then
    (if 0 ≤ y then Real.arctan (y / x) + Real.pi else Real.arctan (y / x) - Real.pi)
  else
    (if 0 < y then Real.pi / 2 else if y < 0 then -(Real.pi / 2) else 0)

/-- The source's local `angle(ux,uy,vx,vy)`: signed angle between two
vectors via atan2 of cross and dot product. -/
noncomputable def angle (ux uy vx vy : ℝ) : ℝ :=
  atan2 (ux * vy - uy * vx) (ux * vx + uy * vy)

/-- The out-of-range radius correction (`if (lambda > 1) rx *= Math.sqrt(lambda)`). -/
noncomputable def correctedRadius (r lambda : ℝ) : ℝ :=
  if lambda > 1 then r * Real.sqrt lambda else r

/-- The values computed by the endpoint-to-center conversion of
`arcToQuadratic` (steps 1-4 in the source), bundled in one record. -/
structure ArcParams where
  rx : ℝ
  ry : ℝ
  phi : ℝ
  cx : ℝ
  cy : ℝ
  theta1 : ℝ
  dTheta : ℝ
  den : ℝ

noncomputable def computeArcParams (x0 y0 rx0 ry0 xAxisRotation : ℝ)
    (largeArcFlag sweepFlag : Bool) (x y : ℝ) : ArcParams :=
  let rx1 := |rx0|
  let ry1 := |ry0|
  let phi := xAxisRotation * Real.pi / 180
  let cosPhi := Real.cos phi
  let sinPhi := Real.sin phi
  let dx := (x0 - x) / 2
  let dy := (y0 - y) / 2
  let x1p := cosPhi * dx + sinPhi * dy
  let y1p := -sinPhi * dx + cosPhi * dy
  let lambda := x1p * x1p / (rx1 * rx1) + y1p * y1p / (ry1 * ry1)
  let rx := correctedRadius rx1 lambda
  let ry := correctedRadius ry1 lambda
  let rxSq := rx * rx
  let rySq := ry * ry
  let x1pSq := x1p * x1p
  let y1pSq := y1p * y1p
  let num0 := rxSq * rySq - rxSq * y1pSq - rySq * x1pSq
  let den := rxSq * y1pSq + rySq * x1pSq
  let num := if num0 < 0 then 0 else num0
  let sq0 := Real.sqrt (num / den)
  let sq := if largeArcFlag = sweepFlag then -sq0 else sq0
  let cxp := sq * rx * y1p / ry
  let cyp := -sq * ry * x1p / rx
  let cx := cosPhi * cxp - sinPhi * cyp + (x0 + x) / 2
  let cy := sinPhi * cxp + cosPhi * cyp + (y0 + y) / 2
  let theta1 := angle 1 0 ((x1p - cxp) / rx) ((y1p - cyp) / ry)
  let dT0 := angle ((x1p - cxp) / rx) ((y1p - cyp) / ry) ((-x1p - cxp) / rx) ((-y1p - cyp) / ry)
  let dT1 := if sweepFlag = false ∧ dT0 > 0 then dT0 - 2 * Real.pi else dT0
  let dT2 := if sweepFlag = true ∧ dT1 < 0 then dT1 + 2 * Real.pi else dT1
  ⟨rx, ry, phi, cx, cy, theta1, dT2, den⟩

/-- convertPaths.ts `arcToQuadratic`.  Degenerate radii give one straight
segment.  When the endpoints coincide, den = 0, and the source's float
arithmetic does the following: num = rx²·ry² > 0 and den = +0 give
num/den = +Infinity, sq = ±Infinity, and cxp = (±Infinity·rx·0)/ry = NaN
(∞·0); the NaN propagates through cx, cy, theta1 and dTheta;
`Math.abs(NaN)/(π/2)`, `Math.ceil(NaN)` and `Math.max(1, NaN)` are all
NaN; and the emission loop `for (i = 0; i < NaN; i++)` runs zero times, so
no segments are emitted.  The explicit `den = 0` branch below models
exactly that.  The source's unused locals (alpha, the cubic control points
cp1/cp2/cubicCp1/cubicCp2, tanHalf) do not feed the emitted segments and
are omitted. -/
noncomputable def arcToQuadratic (x0 y0 rx0 ry0 xAxisRotation : ℝ)
    (largeArcFlag sweepFlag : Bool) (x y : ℝ)
    (color : Option (List ℝ)) (isFill : Bool) : List CastlePathData :=
  if rx0 = 0 ∨ ry0 = 0 then [straightSegment x0 y0 x y color isFill]
  else
    let P := computeArcParams x0 y0 rx0 ry0 xAxisRotation largeArcFlag sweepFlag x y
    if P.den = 0 then []
    else
      let numSegments : ℤ := max 1 ⌈|P.dTheta| / (Real.pi / 2)⌉
      let segAngle := P.dTheta / (numSegments : ℝ)
      ((List.range numSegments.toNat).foldl
        (fun (acc : List CastlePathData × ℝ × ℝ) (i : ℕ) =>
          let t1 := P.theta1 + (i : ℝ) * segAngle
          let t2 := P.theta1 + ((i : ℝ) + 1) * segAngle
          let ex := Real.cos P.phi * P.rx * Real.cos t2 -
            Real.sin P.phi * P.ry * Real.sin t2 + P.cx
          let ey := Real.sin P.phi * P.rx * Real.cos t2 +
            Real.cos P.phi * P.ry * Real.sin t2 + P.cy
          let midAngle := (t1 + t2) / 2
          let qcx := Real.cos P.phi * P.rx * (Real.cos midAngle / Real.cos ((t2 - t1) / 2)) -
            Real.sin P.phi * P.ry * (Real.sin midAngle / Real.cos ((t2 - t1) / 2)) + P.cx
          let qcy := Real.sin P.phi * P.rx * (Real.cos midAngle / Real.cos ((t2 - t1) / 2)) +
            Real.cos P.phi * P.ry * (Real.sin midAngle / Real.cos ((t2 - t1) / 2)) + P.cy
          (acc.1 ++ [quadSegment acc.2.1 acc.2.2 ex ey (qcx, qcy) color isFill], ex, ey))
        ([], x0, y0)).1

lemma correctedRadius_pos {r lambda : ℝ} (hr : 0 < r) : 0 < correctedRadius r lambda := by
  unfold correctedRadius
  split
  · exact mul_pos hr (Real.sqrt_pos.mpr (by linarith))
  · exact hr

lemma den_ne_of_ne {rx ry x1p y1p : ℝ} (hrx : 0 < rx) (hry : 0 < ry)
    (hxy : ¬(x1p = 0 ∧ y1p = 0)) :
    rx * rx * (y1p * y1p) + ry * ry * (x1p * x1p) ≠ 0 := by
  intro h
  have h1 : 0 ≤ rx * rx * (y1p * y1p) := mul_nonneg (mul_self_nonneg rx) (mul_self_nonneg y1p)
  have h2 : 0 ≤ ry * ry * (x1p * x1p) := mul_nonneg (mul_self_nonneg ry) (mul_self_nonneg x1p)
  have e1 : rx * rx * (y1p * y1p) = 0 := by linarith
  have e2 : ry * ry * (x1p * x1p) = 0 := by linarith
  have hy : y1p = 0 := by
    rcases mul_eq_zero.mp e1 with h' | h'
    · exact absurd h' (mul_pos hrx hrx).ne'
    · exact mul_self_eq_zero.mp h'
  have hx : x1p = 0 := by
    rcases mul_eq_zero.mp e2 with h' | h'
    · exact absurd h' (mul_pos hry hry).ne'
    · exact mul_self_eq_zero.mp h'
  exact hxy ⟨hx, hy⟩

lemma rot_ne_zero {cphi sphi dx dy : ℝ} (hpyth : cphi ^ 2 + sphi ^ 2 = 1)
    (hne : ¬(dx = 0 ∧ dy = 0)) :
    ¬(cphi * dx + sphi * dy = 0 ∧ -sphi * dx + cphi * dy = 0) := by
  rintro ⟨h1, h2⟩
  apply hne
  constructor
  · linear_combination cphi * h1 - sphi * h2 - dx * hpyth
  · linear_combination sphi * h1 + cphi * h2 - dy * hpyth

lemma computeArcParams_den_ne (x0 y0 rx0 ry0 xrot : ℝ) (la sw : Bool) (x y : ℝ)
    (hrx : rx0 ≠ 0) (hry : ry0 ≠ 0) (hne : (x0, y0) ≠ (x, y)) :
    (computeArcParams x0 y0 rx0 ry0 xrot la sw x y).den ≠ 0 := by
  have hdxy : ¬((x0 - x) / 2 = 0 ∧ (y0 - y) / 2 = 0) := by
    rintro ⟨h1, h2⟩
    apply hne
    rw [Prod.ext_iff]
    exact ⟨by dsimp only; linarith, by dsimp only; linarith⟩
  have hpyth := Real.cos_sq_add_sin_sq (xrot * Real.pi / 180)
  have hx1y1 := rot_ne_zero hpyth hdxy
  simp only [computeArcParams]
  exact den_ne_of_ne (correctedRadius_pos (abs_pos.mpr hrx))
    (correctedRadius_pos (abs_pos.mpr hry)) hx1y1

lemma arc_loop_length (step : List CastlePathData × ℝ × ℝ → ℕ → List CastlePathData × ℝ × ℝ)
    (hstep : ∀ acc i, ((step acc i).1).length = acc.1.length + 1) :
    ∀ (l : List ℕ) (acc : List CastlePathData × ℝ × ℝ),
      ((l.foldl step acc).1).length = acc.1.length + l.length := by
  intro l
  induction l with
  | nil =>
    intro acc
    simp
  | cons a t ih =>
    intro acc
    simp only [List.foldl_cons, List.length_cons]
    rw [ih, hstep]
    omega

lemma arc_loop_length_range (step : List CastlePathData × ℝ × ℝ → ℕ → List CastlePathData × ℝ × ℝ)
    (init : List CastlePathData × ℝ × ℝ) (hinit : init.1 = []) (n : ℕ)
    (hstep : ∀ acc i, ((step acc i).1).length = acc.1.length + 1) :
    (((List.range n).foldl step init).1).length = n := by
  rw [arc_loop_length step hstep (List.range n) init, hinit]
  simp

lemma arc_loop_mem (step : List CastlePathData × ℝ × ℝ → ℕ → List CastlePathData × ℝ × ℝ)
    (P : CastlePathData → Prop)
    (hstep : ∀ acc i, ∀ s ∈ (step acc i).1, s ∈ acc.1 ∨ P s) :
    ∀ (l : List ℕ) (acc : List CastlePathData × ℝ × ℝ),
      (∀ s ∈ acc.1, P s) → ∀ s ∈ (l.foldl step acc).1, P s := by
  intro l
  induction l with
  | nil =>
    intro acc hacc
    exact hacc
  | cons a t ih =>
    intro acc hacc s hs
    simp only [List.foldl_cons] at hs
    refine ih (step acc a) ?_ s hs
    intro s' hs'
    rcases hstep acc a s' hs' with h' | h'
    · exact hacc s' h'
    · exact h'

/-- Claim C2 (amended): for every arc with nonzero radii and distinct
endpoints, the converter splits the sweep into max(1, ⌈|Δθ|/(π/2)⌉) equal
sub-arcs and emits exactly one quadratic segment per sub-arc.  (When the
endpoints coincide — the full-circle case — the center computation divides
by zero and the NaN zeroes the loop count, emitting no segments; see the
counterexample.) -/
theorem arcToQuadratic_sub_arc_count (x0 y0 rx0 ry0 xrot : ℝ) (la sw : Bool) (x y : ℝ)
    (color : Option (List ℝ)) (isFill : Bool)
    (hrx : rx0 ≠ 0) (hry : ry0 ≠ 0) (hne : (x0, y0) ≠ (x, y)) :
    (arcToQuadratic x0 y0 rx0 ry0 xrot la sw x y color isFill).length =
      (max 1 ⌈|(computeArcParams x0 y0 rx0 ry0 xrot la sw x y).dTheta| / (Real.pi / 2)⌉).toNat
    ∧ ∀ seg ∈ arcToQuadratic x0 y0 rx0 ry0 xrot la sw x y color isFill,
        seg.s = 1 ∧ seg.bp.isSome = true := by
  have hden := computeArcParams_den_ne x0 y0 rx0 ry0 xrot la sw x y hrx hry hne
  constructor
  · simp only [arcToQuadratic]
    rw [if_neg (by push_neg; exact ⟨hrx, hry⟩), if_neg hden]
    refine arc_loop_length_range _ ([], x0, y0) rfl _ ?_
    intro acc i
    simp
  · intro seg hseg
    simp only [arcToQuadratic] at hseg
    rw [if_neg (by push_neg; exact ⟨hrx, hry⟩), if_neg hden] at hseg
    refine arc_loop_mem _ (fun s => s.s = 1 ∧ s.bp.isSome = true) ?_ _ ([], x0, y0)
      (fun s hs => absurd hs (List.not_mem_nil s)) seg hseg
    intro acc i s hs
    rcases List.mem_append.mp hs with h' | h'
    · exact Or.inl h'
    · right
      rw [List.mem_singleton.mp h']
      exact ⟨rfl, rfl⟩

/-- Witness for C2 at a concrete arc: the unit semicircle from (−1,0) to
(1,0), which satisfies the nondegeneracy hypotheses. -/
theorem arcToQuadratic_sub_arc_count_witness :
    ((-1 : ℝ), (0 : ℝ)) ≠ ((1 : ℝ), (0 : ℝ)) ∧
    (arcToQuadratic (-1) 0 1 1 0 false true 1 0 none false).length =
      (max 1 ⌈|(computeArcParams (-1) 0 1 1 0 false true 1 0).dTheta| / (Real.pi / 2)⌉).toNat :=
  ⟨by norm_num [Prod.ext_iff],
   (arcToQuadratic_sub_arc_count (-1) 0 1 1 0 false true 1 0 none false
      (by norm_num) (by norm_num) (by norm_num [Prod.ext_iff])).1⟩

/-- Counterexample for claim C2: a full-circle arc (identical start and
end points, large-arc flag 1) emits NO segments rather than four sub-arcs:
the endpoint-to-center conversion hits den = 0 and the NaN cascade makes
the emission loop run zero times. -/
theorem arcToQuadratic_full_circle_counterexample :
    arcToQuadratic 0 0 1 1 0 true false 0 0 none false = [] := by
  simp only [arcToQuadratic]
  rw [if_neg (by norm_num)]
  rw [if_pos]
  simp only [computeArcParams, correctedRadius]
  norm_num

/-! ### The per-element converter (convertPaths.ts `convertElement`) -/

/-- convertPaths.ts `viewBoxToCastleTransform` result record. -/
structure VBTransform where
  scale : ℝ
  offsetX : ℝ
  offsetY : ℝ

/-- convertPaths.ts `viewBoxToCastleTransform`; CASTLE_HALF_SIZE = 10. -/
noncomputable def viewBoxToCastleTransform (viewBox : ℝ × ℝ × ℝ × ℝ) : VBTransform :=
  let vx := viewBox.1
  let vy := viewBox.2.1
  let vw := viewBox.2.2.1
  let vh := viewBox.2.2.2
  let scale := 10 * 2 / max vw vh
  ⟨scale, -vx * scale - vw * scale / 2, -vy * scale - vh * scale / 2⟩

/-- convertPaths.ts `tocastle`: element transform, then viewBox→Castle. -/
def tocastle (svgX svgY : ℝ) (elementMatrix : Matrix) (vb : VBTransform) : ℝ × ℝ :=
  let t := transformPoint elementMatrix svgX svgY
  (t.1 * vb.scale + vb.offsetX, t.2 * vb.scale + vb.offsetY)

/-- Absolute path commands: the output of svg-pathdata's
`new SVGPathData(d).toAbs().commands`.  The parsing library is external;
commands enter the model already parsed. -/
inductive SVGCmd where
  | moveTo (x y : ℝ)
  | lineTo (x y : ℝ)
  | horizLineTo (x : ℝ)
  | vertLineTo (y : ℝ)
  | quadTo (x1 y1 x y : ℝ)
  | curveTo (x1 y1 x2 y2 x y : ℝ)
  | arc (rX rY xRot : ℝ) (lArcFlag sweepFlag : Bool) (x y : ℝ)
  | closePath
  | smoothCurveTo (x2 y2 x y : ℝ)
  | smoothQuadTo (x y : ℝ)

/-- The per-pass mutable state of `convertElement`'s command loop. -/
structure PassState where
  curX : ℝ
  curY : ℝ
  startX : ℝ
  startY : ℝ

/-- One step of `convertElement`'s command switch: the new state and the
segments this command pushes.  Each case mirrors the source, including the
odd SVG-space round-trips of the H and V cases and the S command's use of
the current point as the missing first control point. -/
noncomputable def applyCmd (transform : Matrix) (vb : VBTransform) (tolerance : ℝ)
    (color : Option (List ℝ)) (isFill : Bool) (st : PassState) :
    SVGCmd → PassState × List CastlePathData
  | .moveTo x y =>
    let c := tocastle x y transform vb
    (⟨c.1, c.2, c.1, c.2⟩, [])
  | .lineTo x y =>
    let n := tocastle x y transform vb
    (⟨n.1, n.2, st.startX, st.startY⟩,
      [straightSegment st.curX st.curY n.1 n.2 color isFill])
  | .horizLineTo x =>
    let n := tocastle x (st.curY / vb.scale - vb.offsetY / vb.scale) transform vb
    (⟨n.1, st.curY, st.startX, st.startY⟩,
      [straightSegment st.curX st.curY n.1 st.curY color isFill])
  | .vertLineTo y =>
    let n := tocastle (st.curX / vb.scale - vb.offsetX / vb.scale) y transform vb
    (⟨st.curX, n.2, st.startX, st.startY⟩,
      [straightSegment st.curX st.curY st.curX n.2 color isFill])
  | .quadTo x1 y1 x y =>
    let n := tocastle x y transform vb
    let b := tocastle x1 y1 transform vb
    (⟨n.1, n.2, st.startX, st.startY⟩,
      [quadSegment st.curX st.curY n.1 n.2 (b.1, b.2) color isFill])
  | .curveTo x1 y1 x2 y2 x y =>
    let cp1 := tocastle x1 y1 transform vb
    let cp2 := tocastle x2 y2 transform vb
    let n := tocastle x y transform vb
    (⟨n.1, n.2, st.startX, st.startY⟩,
      cubicToQuadratic st.curX st.curY cp1.1 cp1.2 cp2.1 cp2.2 n.1 n.2
        tolerance color isFill 0)
  | .arc rX rY xRot lArcFlag sweepFlag x y =>
    let n := tocastle x y transform vb
    (⟨n.1, n.2, st.startX, st.startY⟩,
      arcToQuadratic st.curX st.curY (rX * vb.scale) (rY * vb.scale) xRot
        lArcFlag sweepFlag n.1 n.2 color isFill)
  | .closePath =>
    (⟨st.startX, st.startY, st.startX, st.startY⟩,
      if |st.curX - st.startX| > 0.001 ∨ |st.curY - st.startY| > 0.001 then
        [straightSegment st.curX st.curY st.startX st.startY color isFill]
      else [])
  | .smoothCurveTo x2 y2 x y =>
    let cp2 := tocastle x2 y2 transform vb
    let n := tocastle x y transform vb
    (⟨n.1, n.2, st.startX, st.startY⟩,
      cubicToQuadratic st.curX st.curY st.curX st.curY cp2.1 cp2.2 n.1 n.2
        tolerance color isFill 0)
  | .smoothQuadTo x y =>
    let n := tocastle x y transform vb
    (⟨n.1, n.2, st.startX, st.startY⟩,
      [straightSegment st.curX st.curY n.1 n.2 color isFill])

/-- One full pass of `convertElement` over the command list for a single
color set; the source resets the state to zeros at the start of each
pass. -/
noncomputable def runPassGo (transform : Matrix) (vb : VBTransform) (tolerance : ℝ)
    (color : Option (List ℝ)) (isFill : Bool) :
    PassState → List SVGCmd → List CastlePathData
  | _, [] => []
  | st, cmd :: rest =>
    (applyCmd transform vb tolerance color isFill st cmd).2 ++
      runPassGo transform vb tolerance color isFill
        (applyCmd transform vb tolerance color isFill st cmd).1 rest

/-- The [r,g,b,a] array the source builds from a castle color. -/
def colorArr (c : CastleColor) : List ℝ := [c.r, c.g, c.b, c.a]

/-- `convertElement`'s color sets: fill pass (f = true) before stroke pass
(f = false); a single default set with no color when neither paint is in
the color map. -/
def colorSets (fillMapping strokeMapping : Option ColorMapping) :
    List (Option (List ℝ) × Bool) :=
  let sets :=
    (match fillMapping with
     | some m => [(some (colorArr m.castleColor), true)]
     | none => []) ++
    (match strokeMapping with
     | some m => [(some (colorArr m.castleColor), false)]
     | none => [])
  if sets.isEmpty then [(none, false)] else sets

/-- parseSvg.ts `ParsedElement`.  The path `d` string is carried as the
result of the external svg-pathdata parse (`none` when the parser throws);
fill and stroke are normalized hex strings or `none`. -/
structure ParsedElement where
  dParse : Option (List SVGCmd)
  fill : Option String
  stroke : Option String
  strokeWidth : ℝ
  transform : Matrix

/-- `colorMap.get(hex)` on the association list built by `buildColorMap`. -/
def lookupColor (colorMap : List (String × ColorMapping)) (hex : String) :
    Option ColorMapping :=
  (colorMap.find? fun e => e.1 == hex).map fun e => e.2

/-- convertPaths.ts `convertElement`. -/
noncomputable def convertElement (element : ParsedElement)
    (viewBox : ℝ × ℝ × ℝ × ℝ) (colorMap : List (String × ColorMapping))
    (tolerance : ℝ) : List CastlePathData :=
  let vbTransform := viewBoxToCastleTransform viewBox
  let fillMapping := element.fill.bind (lookupColor colorMap)
  let strokeMapping := element.stroke.bind (lookupColor colorMap)
  match element.dParse with
  | none => []
  | some commands =>
    (colorSets fillMapping strokeMapping).flatMap fun cs =>
      runPassGo element.transform vbTransform tolerance cs.1 cs.2 ⟨0, 0, 0, 0⟩ commands

/-- convertPaths.ts `convertAllPaths`. -/
noncomputable def convertAllPaths (elements : List ParsedElement)
    (viewBox : ℝ × ℝ × ℝ × ℝ) (colorMap : List (String × ColorMapping))
    (tolerance : ℝ) : List CastlePathData :=
  elements.flatMap fun element => convertElement element viewBox colorMap tolerance

/-! ### Fill/stroke passes (claims C6, C7) -/

lemma cubicToQuadratic_paint :
    ∀ (n depth : ℕ), 9 ≤ depth + n →
      ∀ (x0 y0 x1 y1 x2 y2 x3 y3 tolerance : ℝ) (color : Option (List ℝ)) (isFill : Bool),
      ∀ seg ∈ cubicToQuadratic x0 y0 x1 y1 x2 y2 x3 y3 tolerance color isFill depth,
        seg.f = isFill ∧ seg.c = color := by
  intro n
  induction n with
  | zero =>
    intro depth h9 x0 y0 x1 y1 x2 y2 x3 y3 tol color isFill seg hseg
    rw [cubicToQuadratic, dif_pos (Or.inr (by omega))] at hseg
    rw [List.mem_singleton.mp hseg]
    exact ⟨rfl, rfl⟩
  | succ k ih =>
    intro depth h9 x0 y0 x1 y1 x2 y2 x3 y3 tol color isFill seg hseg
    rw [cubicToQuadratic] at hseg
    split at hseg
    · rw [List.mem_singleton.mp hseg]
      exact ⟨rfl, rfl⟩
    · rcases List.mem_append.mp hseg with h' | h'
      · exact ih (depth + 1) (by omega) _ _ _ _ _ _ _ _ _ _ _ seg h'
      · exact ih (depth + 1) (by omega) _ _ _ _ _ _ _ _ _ _ _ seg h'

lemma cubicToQuadratic_strip :
    ∀ (n depth : ℕ), 9 ≤ depth + n →
      ∀ (x0 y0 x1 y1 x2 y2 x3 y3 tolerance : ℝ) (c1 c2 : Option (List ℝ)) (f1 f2 : Bool),
      (cubicToQuadratic x0 y0 x1 y1 x2 y2 x3 y3 tolerance c1 f1 depth).map segGeom =
        (cubicToQuadratic x0 y0 x1 y1 x2 y2 x3 y3 tolerance c2 f2 depth).map segGeom := by
  intro n
  induction n with
  | zero =>
    intro depth h9 x0 y0 x1 y1 x2 y2 x3 y3 tol c1 c2 f1 f2
    rw [cubicToQuadratic, dif_pos (Or.inr (by omega)),
      cubicToQuadratic, dif_pos (Or.inr (by omega))]
    rfl
  | succ k ih =>
    intro depth h9 x0 y0 x1 y1 x2 y2 x3 y3 tol c1 c2 f1 f2
    rw [cubicToQuadratic, cubicToQuadratic]
    split
    · rfl
    · rw [List.map_append, List.map_append]
      congr 1
      · exact ih (depth + 1) (by omega) _ _ _ _ _ _ _ _ _ _ _ _ _
      · exact ih (depth + 1) (by omega) _ _ _ _ _ _ _ _ _ _ _ _ _

lemma arcToQuadratic_paint (x0 y0 rx0 ry0 xrot : ℝ) (la sw : Bool) (x y : ℝ)
    (color : Option (List ℝ)) (isFill : Bool) :
    ∀ seg ∈ arcToQuadratic x0 y0 rx0 ry0 xrot la sw x y color isFill,
      seg.f = isFill ∧ seg.c = color := by
  intro seg hseg
  simp only [arcToQuadratic] at hseg
  split at hseg
  · rw [List.mem_singleton.mp hseg]
    exact ⟨rfl, rfl⟩
  · split at hseg
    · exact absurd hseg (List.not_mem_nil seg)
    · refine arc_loop_mem _ (fun s => s.f = isFill ∧ s.c = color) ?_ _ ([], x0, y0)
        (fun s hs => absurd hs (List.not_mem_nil s)) seg hseg
      intro acc i s hs
      rcases List.mem_append.mp hs with h' | h'
      · exact Or.inl h'
      · right
        rw [List.mem_singleton.mp h']
        exact ⟨rfl, rfl⟩

lemma arc_loop_rel
    (step1 step2 : List CastlePathData × ℝ × ℝ → ℕ → List CastlePathData × ℝ × ℝ)
    (hstep : ∀ a b i, a.1.map segGeom = b.1.map segGeom → a.2 = b.2 →
        (step1 a i).1.map segGeom = (step2 b i).1.map segGeom ∧ (step1 a i).2 = (step2 b i).2) :
    ∀ (l : List ℕ) a b, a.1.map segGeom = b.1.map segGeom → a.2 = b.2 →
      ((l.foldl step1 a).1).map segGeom = ((l.foldl step2 b).1).map segGeom := by
  intro l
  induction l with
  | nil =>
    intro a b h1 h2
    exact h1
  | cons i t ih =>
    intro a b h1 h2
    simp only [List.foldl_cons]
    obtain ⟨g1, g2⟩ := hstep a b i h1 h2
    exact ih _ _ g1 g2

lemma arcToQuadratic_strip (x0 y0 rx0 ry0 xrot : ℝ) (la sw : Bool) (x y : ℝ)
    (c1 c2 : Option (List ℝ)) (f1 f2 : Bool) :
    (arcToQuadratic x0 y0 rx0 ry0 xrot la sw x y c1 f1).map segGeom =
      (arcToQuadratic x0 y0 rx0 ry0 xrot la sw x y c2 f2).map segGeom := by
  simp only [arcToQuadratic]
  split
  · rfl
  · split
    · rfl
    · refine arc_loop_rel _ _ ?_ _ ([], x0, y0) ([], x0, y0) rfl rfl
      intro a b i h1 h2
      constructor
      · simp only [List.map_append, h1, h2]
        rfl
      · rfl

lemma applyCmd_fst (transform : Matrix) (vb : VBTransform) (tolerance : ℝ)
    (c1 c2 : Option (List ℝ)) (f1 f2 : Bool) (st : PassState) (cmd : SVGCmd) :
    (applyCmd transform vb tolerance c1 f1 st cmd).1 =
      (applyCmd transform vb tolerance c2 f2 st cmd).1 := by
  cases cmd <;> rfl

lemma applyCmd_strip (transform : Matrix) (vb : VBTransform) (tolerance : ℝ)
    (c1 c2 : Option (List ℝ)) (f1 f2 : Bool) (st : PassState) (cmd : SVGCmd) :
    ((applyCmd transform vb tolerance c1 f1 st cmd).2).map segGeom =
      ((applyCmd transform vb tolerance c2 f2 st cmd).2).map segGeom := by
  cases cmd with
  | curveTo x1 y1 x2 y2 x y =>
    exact cubicToQuadratic_strip 9 0 (by omega) _ _ _ _ _ _ _ _ _ c1 c2 f1 f2
  | arc rX rY xRot lA sF x y =>
    exact arcToQuadratic_strip _ _ _ _ _ _ _ _ _ c1 c2 f1 f2
  | smoothCurveTo x2 y2 x y =>
    exact cubicToQuadratic_strip 9 0 (by omega) _ _ _ _ _ _ _ _ _ c1 c2 f1 f2
  | closePath =>
    simp only [applyCmd]
    split
    · rfl
    · rfl
  | _ => rfl

lemma applyCmd_paint (transform : Matrix) (vb : VBTransform) (tolerance : ℝ)
    (color : Option (List ℝ)) (isFill : Bool) (st : PassState) (cmd : SVGCmd) :
    ∀ seg ∈ (applyCmd transform vb tolerance color isFill st cmd).2,
      seg.f = isFill ∧ seg.c = color := by
  cases cmd with
  | curveTo x1 y1 x2 y2 x y =>
    exact cubicToQuadratic_paint 9 0 (by omega) _ _ _ _ _ _ _ _ _ color isFill
  | arc rX rY xRot lA sF x y =>
    exact arcToQuadratic_paint _ _ _ _ _ _ _ _ _ color isFill
  | smoothCurveTo x2 y2 x y =>
    exact cubicToQuadratic_paint 9 0 (by omega) _ _ _ _ _ _ _ _ _ color isFill
  | closePath =>
    intro seg hseg
    simp only [applyCmd] at hseg
    split at hseg
    · rw [List.mem_singleton.mp hseg]
      exact ⟨rfl, rfl⟩
    · exact absurd hseg (List.not_mem_nil seg)
  | moveTo x y =>
    intro seg hseg
    exact absurd hseg (List.not_mem_nil seg)
  | lineTo x y =>
    intro seg hseg
    rw [List.mem_singleton.mp hseg]
    exact ⟨rfl, rfl⟩
  | horizLineTo x =>
    intro seg hseg
    rw [List.mem_singleton.mp hseg]
    exact ⟨rfl, rfl⟩
  | vertLineTo y =>
    intro seg hseg
    rw [List.mem_singleton.mp hseg]
    exact ⟨rfl, rfl⟩
  | quadTo x1 y1 x y =>
    intro seg hseg
    rw [List.mem_singleton.mp hseg]
    exact ⟨rfl, rfl⟩
  | smoothQuadTo x y =>
    intro seg hseg
    rw [List.mem_singleton.mp hseg]
    exact ⟨rfl, rfl⟩

lemma runPassGo_paint (transform : Matrix) (vb : VBTransform) (tolerance : ℝ)
    (color : Option (List ℝ)) (isFill : Bool) :
    ∀ (cmds : List SVGCmd) (st : PassState),
      ∀ seg ∈ runPassGo transform vb tolerance color isFill st cmds,
        seg.f = isFill ∧ seg.c = color := by
  intro cmds
  induction cmds with
  | nil =>
    intro st seg hseg
    rw [runPassGo] at hseg
    exact absurd hseg (List.not_mem_nil seg)
  | cons cmd rest ih =>
    intro st seg hseg
    rw [runPassGo] at hseg
    rcases List.mem_append.mp hseg with h' | h'
    · exact applyCmd_paint transform vb tolerance color isFill st cmd seg h'
    · exact ih _ seg h'

lemma runPassGo_strip (transform : Matrix) (vb : VBTransform) (tolerance : ℝ)
    (c1 c2 : Option (List ℝ)) (f1 f2 : Bool) :
    ∀ (cmds : List SVGCmd) (st : PassState),
      (runPassGo transform vb tolerance c1 f1 st cmds).map segGeom =
        (runPassGo transform vb tolerance c2 f2 st cmds).map segGeom := by
  intro cmds
  induction cmds with
  | nil =>
    intro st
    rw [runPassGo, runPassGo]
  | cons cmd rest ih =>
    intro st
    rw [runPassGo, runPassGo, List.map_append, List.map_append]
    congr 1
    · exact applyCmd_strip transform vb tolerance c1 c2 f1 f2 st cmd
    · rw [applyCmd_fst transform vb tolerance c1 c2 f1 f2 st cmd]
      exact ih _

/-- Claim C6: a leaf whose fill and stroke are both present in the color
map is converted in two independent full passes over the command stream —
the fill pass first, the stroke pass second — each emitting a complete
copy of the element's geometry; every fill-pass segment carries f = true
and the fill color, every stroke-pass segment f = false and the stroke
color, and the two passes' geometry (endpoints, style, bend points)
coincide. -/
theorem convertElement_two_passes
    (element : ParsedElement) (viewBox : ℝ × ℝ × ℝ × ℝ)
    (colorMap : List (String × ColorMapping)) (tolerance : ℝ)
    (cmds : List SVGCmd) (cf cs : String) (fm sm : ColorMapping)
    (hd : element.dParse = some cmds) (hf : element.fill = some cf)
    (hs : element.stroke = some cs)
    (hfm : lookupColor colorMap cf = some fm) (hsm : lookupColor colorMap cs = some sm) :
    convertElement element viewBox colorMap tolerance =
      runPassGo element.transform (viewBoxToCastleTransform viewBox) tolerance
          (some (colorArr fm.castleColor)) true ⟨0, 0, 0, 0⟩ cmds ++
        runPassGo element.transform (viewBoxToCastleTransform viewBox) tolerance
          (some (colorArr sm.castleColor)) false ⟨0, 0, 0, 0⟩ cmds
    ∧ (runPassGo element.transform (viewBoxToCastleTransform viewBox) tolerance
          (some (colorArr fm.castleColor)) true ⟨0, 0, 0, 0⟩ cmds).map segGeom =
        (runPassGo element.transform (viewBoxToCastleTransform viewBox) tolerance
          (some (colorArr sm.castleColor)) false ⟨0, 0, 0, 0⟩ cmds).map segGeom
    ∧ (∀ seg ∈ runPassGo element.transform (viewBoxToCastleTransform viewBox) tolerance
          (some (colorArr fm.castleColor)) true ⟨0, 0, 0, 0⟩ cmds,
        seg.f = true ∧ seg.c = some (colorArr fm.castleColor))
    ∧ (∀ seg ∈ runPassGo element.transform (viewBoxToCastleTransform viewBox) tolerance
          (some (colorArr sm.castleColor)) false ⟨0, 0, 0, 0⟩ cmds,
        seg.f = false ∧ seg.c = some (colorArr sm.castleColor)) := by
  refine ⟨?_, runPassGo_strip _ _ _ _ _ _ _ _ _,
    runPassGo_paint _ _ _ _ _ _ _, runPassGo_paint _ _ _ _ _ _ _⟩
  simp only [convertElement, hd, hf, hs, Option.some_bind, hfm, hsm, colorSets,
    List.cons_append, List.nil_append, List.isEmpty_cons, Bool.false_eq_true, if_false,
    List.flatMap_cons, List.flatMap_nil, List.append_nil]

/-- Witness for C6 at a concrete element, color map and command list. -/
theorem convertElement_two_passes_witness :
    lookupColor [("#ff0000", (⟨"#ff0000", 0, "#ff0000", ⟨1, 0, 0, 1⟩, 0⟩ : ColorMapping)),
        ("#0000ff", (⟨"#0000ff", 1, "#0000ff", ⟨0, 0, 1, 1⟩, 0⟩ : ColorMapping))] "#ff0000" =
      some ⟨"#ff0000", 0, "#ff0000", ⟨1, 0, 0, 1⟩, 0⟩ ∧
    convertElement
        ⟨some [SVGCmd.moveTo 0 0, SVGCmd.lineTo 1 1], some "#ff0000", some "#0000ff", 1,
          IDENTITY⟩ (0, 0, 10, 10)
        [("#ff0000", ⟨"#ff0000", 0, "#ff0000", ⟨1, 0, 0, 1⟩, 0⟩),
         ("#0000ff", ⟨"#0000ff", 1, "#0000ff", ⟨0, 0, 1, 1⟩, 0⟩)] 0.05 =
      runPassGo IDENTITY (viewBoxToCastleTransform (0, 0, 10, 10)) 0.05
          (some (colorArr ⟨1, 0, 0, 1⟩)) true ⟨0, 0, 0, 0⟩
          [SVGCmd.moveTo 0 0, SVGCmd.lineTo 1 1] ++
        runPassGo IDENTITY (viewBoxToCastleTransform (0, 0, 10, 10)) 0.05
          (some (colorArr ⟨0, 0, 1, 1⟩)) false ⟨0, 0, 0, 0⟩
          [SVGCmd.moveTo 0 0, SVGCmd.lineTo 1 1] :=
  ⟨rfl,
   (convertElement_two_passes
      ⟨some [SVGCmd.moveTo 0 0, SVGCmd.lineTo 1 1], some "#ff0000", some "#0000ff", 1,
        IDENTITY⟩ (0, 0, 10, 10)
      [("#ff0000", ⟨"#ff0000", 0, "#ff0000", ⟨1, 0, 0, 1⟩, 0⟩),
       ("#0000ff", ⟨"#0000ff", 1, "#0000ff", ⟨0, 0, 1, 1⟩, 0⟩)] 0.05
      [SVGCmd.moveTo 0 0, SVGCmd.lineTo 1 1] "#ff0000" "#0000ff"
      ⟨"#ff0000", 0, "#ff0000", ⟨1, 0, 0, 1⟩, 0⟩ ⟨"#0000ff", 1, "#0000ff", ⟨0, 0, 1, 1⟩, 0⟩
      rfl rfl rfl rfl rfl).1⟩

/-- Claim C7: an element whose `d` string the path parser rejects yields
no segments (the converter catches the exception and returns the empty
list), and an element whose `d` parses to no commands likewise yields no
segments. -/
theorem convertElement_unparseable_or_empty
    (element : ParsedElement) (viewBox : ℝ × ℝ × ℝ × ℝ)
    (colorMap : List (String × ColorMapping)) (tolerance : ℝ) :
    (element.dParse = none → convertElement element viewBox colorMap tolerance = []) ∧
    (element.dParse = some [] → convertElement element viewBox colorMap tolerance = []) := by
  constructor
  · intro h
    simp [convertElement, h]
  · intro h
    simp only [convertElement, h]
    have hnil : ∀ cs : Option (List ℝ) × Bool,
        runPassGo element.transform (viewBoxToCastleTransform viewBox) tolerance
          cs.1 cs.2 ⟨0, 0, 0, 0⟩ [] = [] := fun cs => by rw [runPassGo]
    induction colorSets (element.fill.bind (lookupColor colorMap))
        (element.stroke.bind (lookupColor colorMap)) with
    | nil => rfl
    | cons c t ih =>
      rw [List.flatMap_cons, hnil c, List.nil_append]
      exact ih

/-- Witness for C7: a parse failure and an empty command list both yield
no segments on concrete elements. -/
theorem convertElement_unparseable_witness :
    (⟨none, none, none, 1, IDENTITY⟩ : ParsedElement).dParse = none ∧
    convertElement ⟨none, none, none, 1, IDENTITY⟩ (0, 0, 100, 100) [] 0.05 = [] ∧
    (⟨some [], none, none, 1, IDENTITY⟩ : ParsedElement).dParse = some [] ∧
    convertElement ⟨some [], none, none, 1, IDENTITY⟩ (0, 0, 100, 100) [] 0.05 = [] :=
  ⟨rfl, (convertElement_unparseable_or_empty _ _ _ _).1 rfl, rfl,
   (convertElement_unparseable_or_empty _ _ _ _).2 rfl⟩

/-! ### Assembler (buildCastleDrawData and renderFills.ts) -/

/-- Warnings as symbolic tags; the source formats them into strings, but
the message text is presentation only. -/
inductive Warning where
  | fromParse (s : String)
  | highDeltaE (hex : String)
  | varyingStrokeWidths
deriving DecidableEq

/-- parseSvg.ts `ParsedSvg`: the DOM walk is external, its result enters
the model as data. -/
structure ParsedSvgModel where
  viewBox : ℝ × ℝ × ℝ × ℝ
  elements : List ParsedElement
  colors : List String
  warnings : List Warning

structure CastleFrame where
  isLinked : Bool
  pathDataList : List CastlePathData
  fillImageBounds : CastleBounds
  fillPng : String

structure CastleLayer where
  title : String
  id : String
  isVisible : Bool
  isBitmap : Bool
  frames : List CastleFrame

structure CastleDrawData where
  version : ℕ
  scale : ℝ
  gridSize : ℝ
  fillPixelsPerUnit : ℝ
  colors : List CastleColor
  layers : List CastleLayer

structure BuildResult where
  drawData : CastleDrawData
  colorMappings : List (String × ColorMapping)
  warnings : List Warning

/-- renderFills.ts `renderFillPng`, with the browser canvas abstracted:
`raster` holds the base64 PNG the rasterizer produces, `none` models the
img.onerror path, which resolves the empty string.  The early return for
nonpositive pixel sizes (`Math.ceil((maxX-minX)*25.6)` by
`Math.ceil((maxY-minY)*25.6)`) is the source's first check. -/
noncomputable def renderFillPng (raster : Option String) (bounds : CastleBounds) : String :=
  if ⌈(bounds.maxX - bounds.minX) * 25.6⌉ ≤ 0 ∨ ⌈(bounds.maxY - bounds.minY) * 25.6⌉ ≤ 0
  then ""
  else raster.getD ""

/-- index.ts `buildCastleDrawData`, from the parsed SVG (DOM parsing is
external), with the per-invocation uuid (`layerId`) and the rasterizer
response (`raster`) as parameters for the two effectful steps. -/
noncomputable def buildCastleDrawData (parsed : ParsedSvgModel)
    (paletteHex : List String) (paletteCastle : List CastleColor)
    (tolerance : ℝ) (layerId : String) (raster : Option String) : BuildResult :=
  let colorMap := buildColorMap parsed.colors paletteHex paletteCastle
  let warnings1 := parsed.warnings ++
    ((colorMap.filter fun e => ((15 : ℝ) : EReal) < e.2.deltaE).map fun e =>
      Warning.highDeltaE e.1)
  let pathDataList := convertAllPaths parsed.elements parsed.viewBox colorMap tolerance
  let strokeWidths := ((parsed.elements.filter fun e => e.stroke.isSome).map
    fun e => e.strokeWidth).dedup
  let warnings2 := warnings1 ++
    (if 1 < strokeWidths.length then [Warning.varyingStrokeWidths] else [])
  let bounds := computeBounds pathDataList
  let fillPng := renderFillPng raster bounds
  ⟨⟨3, 10, 0.71428571428571, 25.6, paletteCastle,
     [⟨"Imported", layerId, true, false, [⟨false, pathDataList, bounds, fillPng⟩]⟩]⟩,
   colorMap, warnings2⟩

lemma renderFillPng_fallback (raster : Option String) :
    renderFillPng raster ⟨-10, 10, -10, 10⟩ = raster.getD "" := by
  rw [renderFillPng, if_neg]
  push_neg
  constructor
  · rw [show ((10 : ℝ) - (-10)) * 25.6 = 512 by norm_num]
    simp
  · rw [show ((10 : ℝ) - (-10)) * 25.6 = 512 by norm_num]
    simp

lemma buildCastleDrawData_empty_aux (parsed : ParsedSvgModel)
    (paletteHex : List String) (paletteCastle : List CastleColor)
    (tolerance : ℝ) (layerId : String) (raster : Option String)
    (h : parsed.elements = []) :
    (buildCastleDrawData parsed paletteHex paletteCastle tolerance layerId
        raster).drawData.layers.map (fun L => L.frames.map fun fr =>
          (fr.pathDataList, fr.fillImageBounds, fr.fillPng)) =
      [[([], ⟨-10, 10, -10, 10⟩, raster.getD "")]] := by
  simp only [buildCastleDrawData, h, convertAllPaths, List.flatMap_nil, computeBounds,
    renderFillPng_fallback, List.map_cons, List.map_nil]

/-- Claim C5 (amended): an SVG whose body contains no drawable leaves
produces a document with zero segments and the fallback bounds
(−10,10,−10,10); the fill PNG is the rasterizer's output for the
512×512-pixel fallback render — the empty-string early return is not
taken, because the fallback bounds have positive pixel size — so it is
empty only when rasterization fails. -/
theorem buildCastleDrawData_empty (parsed : ParsedSvgModel)
    (paletteHex : List String) (paletteCastle : List CastleColor)
    (tolerance : ℝ) (layerId : String) (raster : Option String)
    (h : parsed.elements = []) :
    (buildCastleDrawData parsed paletteHex paletteCastle tolerance layerId
        raster).drawData.layers.map (fun L => L.frames.map fun fr =>
          (fr.pathDataList, fr.fillImageBounds, fr.fillPng)) =
      [[([], ⟨-10, 10, -10, 10⟩, raster.getD "")]] :=
  buildCastleDrawData_empty_aux parsed paletteHex paletteCastle tolerance layerId raster h

/-- Witness for C5 at a concrete empty parse and a successful raster. -/
theorem buildCastleDrawData_empty_witness :
    (⟨(0, 0, 100, 100), [], [], []⟩ : ParsedSvgModel).elements = [] ∧
    (buildCastleDrawData ⟨(0, 0, 100, 100), [], [], []⟩ [] [] 0.05 "layer-1"
        (some "PNGDATA")).drawData.layers.map (fun L => L.frames.map fun fr =>
          (fr.pathDataList, fr.fillImageBounds, fr.fillPng)) =
      [[([], ⟨-10, 10, -10, 10⟩, (some "PNGDATA").getD "")]] :=
  ⟨rfl, buildCastleDrawData_empty ⟨(0, 0, 100, 100), [], [], []⟩ [] [] 0.05 "layer-1"
    (some "PNGDATA") rfl⟩

/-- Counterexample for claim C5: on an empty body with a successful
rasterization the emitted fill PNG is the rasterizer's nonempty output —
not the empty string the claim demands. -/
theorem buildCastleDrawData_empty_fillPng_counterexample :
    (buildCastleDrawData ⟨(0, 0, 100, 100), [], [], []⟩ [] [] 0.05 "layer-1"
        (some "iVBORw0KGgo")).drawData.layers.map (fun L => L.frames.map fun fr =>
          (fr.pathDataList, fr.fillImageBounds, fr.fillPng)) =
      [[([], ⟨-10, 10, -10, 10⟩, "iVBORw0KGgo")]] ∧
    "iVBORw0KGgo" ≠ "" :=
  ⟨buildCastleDrawData_empty_aux ⟨(0, 0, 100, 100), [], [], []⟩ [] [] 0.05 "layer-1"
    (some "iVBORw0KGgo") rfl, by decide⟩

/-- Replace the layer's freshly generated id by a constant. -/
def stripLayerId (L : CastleLayer) : CastleLayer := { L with id := "" }

/-- Claim C9 (amended): the core pipeline is pure and deterministic in the
parsed SVG, palette, tolerance and rasterizer response; the freshly
generated uuid appears only as the single layer's id.  Two invocations
with identical inputs agree on the color mappings, the warnings and the
whole document apart from the layer id, which is exactly the generated
uuid — so the full results coincide only when the two generated ids do
(see the counterexample). -/
theorem buildCastleDrawData_deterministic_except_id (parsed : ParsedSvgModel)
    (paletteHex : List String) (paletteCastle : List CastleColor) (tolerance : ℝ)
    (raster : Option String) (id1 id2 : String) :
    (buildCastleDrawData parsed paletteHex paletteCastle tolerance id1 raster).colorMappings =
      (buildCastleDrawData parsed paletteHex paletteCastle tolerance id2 raster).colorMappings ∧
    (buildCastleDrawData parsed paletteHex paletteCastle tolerance id1 raster).warnings =
      (buildCastleDrawData parsed paletteHex paletteCastle tolerance id2 raster).warnings ∧
    (buildCastleDrawData parsed paletteHex paletteCastle tolerance id1
        raster).drawData.layers.map stripLayerId =
      (buildCastleDrawData parsed paletteHex paletteCastle tolerance id2
        raster).drawData.layers.map stripLayerId ∧
    (buildCastleDrawData parsed paletteHex paletteCastle tolerance id1
        raster).drawData.layers.map (fun L => L.id) = [id1] ∧
    (buildCastleDrawData parsed paletteHex paletteCastle tolerance id2
        raster).drawData.layers.map (fun L => L.id) = [id2] :=
  ⟨rfl, rfl, rfl, rfl, rfl⟩

/-- Counterexample for claim C9: the layer id is a fresh uuid per
invocation, so two invocations with identical inputs do not return
identical results — the documents differ in the layer id. -/
theorem buildCastleDrawData_not_identical :
    buildCastleDrawData ⟨(0, 0, 100, 100), [], [], []⟩ [] [] 0.05 "uuid-a" none ≠
      buildCastleDrawData ⟨(0, 0, 100, 100), [], [], []⟩ [] [] 0.05 "uuid-b" none := by
  intro h
  have h2 := congrArg (fun r => r.drawData.layers.map fun L => L.id) h
  simp only [buildCastleDrawData, List.map_cons, List.map_nil] at h2
  have h3 : "uuid-a" = "uuid-b" := List.head_eq_of_cons_eq h2
  exact absurd h3 (by decide)

end Fenna
